import Mathlib

/-!
# Signed webhook delivery (plugin/webhook/webhook.go)

A shallow embedding of the webhook sender: `New`, `payload`, `sender`, `sender.Send`,
`sender.send`, `sender.client` and `digest`, together with the library functions they call
(base64, SHA-256, HMAC, HTTP headers, contexts, the HTTP date format), followed by the
properties of the delivery loop, of the digest and signature headers, of the payload wrapper and
of the request context.

The network and the clock are the outside world: they are state-passing functions over an
arbitrary world type `W`. Every run returns the effects it performed, in order, so that "was
attempted", "was serialized" and "was transmitted" are statements about a list.
-/

set_option linter.unusedVariables false

namespace Webhook

/-- Bytes of a Go string or byte slice. -/
abbrev Bytes := List Nat

/-- Go's `error` values, by their message. -/
abbrev Error := String

/-- The bytes of a string (its UTF-8 encoding): Go's conversion of a string to a byte slice. -/
def bytesOf (s : String) : Bytes :=
  s.toList.flatMap fun c => (String.utf8EncodeChar c).map UInt8.toNat

/-! ## encoding/base64: `StdEncoding.EncodeToString` -/

def b64Alphabet : List Char :=
  "ABCDEFGHIJKLMNOPQRSTUVWXYZabcdefghijklmnopqrstuvwxyz0123456789+/".toList

def b64Char (n : Nat) : Char := b64Alphabet.getD (n % 64) 'A'

/-- Three bytes give four characters; a final group of one or two bytes is padded with `=`. -/
def b64Chars : Bytes → List Char
  | [] => []
  | [a] => [b64Char (a / 4), b64Char (a % 4 * 16), '=', '=']
  | [a, b] => [b64Char (a / 4), b64Char (a % 4 * 16 + b / 16), b64Char (b % 16 * 4), '=']
  | a :: b :: c :: rest =>
    b64Char (a / 4) :: b64Char (a % 4 * 16 + b / 16) :: b64Char (b % 16 * 4 + c / 64)
      :: b64Char (c % 64) :: b64Chars rest

def base64Std (bs : Bytes) : String := String.mk (b64Chars bs)

/-! ## crypto/sha256 (FIPS 180-4), on 32-bit words held as naturals -/

def w32 : Nat := 4294967296

def rotr (n x : Nat) : Nat := (x >>> n ||| x <<< (32 - n)) % w32

def sha256K : List Nat := [
  0x428a2f98, 0x71374491, 0xb5c0fbcf, 0xe9b5dba5, 0x3956c25b, 0x59f111f1, 0x923f82a4, 0xab1c5ed5,
  0xd807aa98, 0x12835b01, 0x243185be, 0x550c7dc3, 0x72be5d74, 0x80deb1fe, 0x9bdc06a7, 0xc19bf174,
  0xe49b69c1, 0xefbe4786, 0x0fc19dc6, 0x240ca1cc, 0x2de92c6f, 0x4a7484aa, 0x5cb0a9dc, 0x76f988da,
  0x983e5152, 0xa831c66d, 0xb00327c8, 0xbf597fc7, 0xc6e00bf3, 0xd5a79147, 0x06ca6351, 0x14292967,
  0x27b70a85, 0x2e1b2138, 0x4d2c6dfc, 0x53380d13, 0x650a7354, 0x766a0abb, 0x81c2c92e, 0x92722c85,
  0xa2bfe8a1, 0xa81a664b, 0xc24b8b70, 0xc76c51a3, 0xd192e819, 0xd6990624, 0xf40e3585, 0x106aa070,
  0x19a4c116, 0x1e376c08, 0x2748774c, 0x34b0bcb5, 0x391c0cb3, 0x4ed8aa4a, 0x5b9cca4f, 0x682e6ff3,
  0x748f82ee, 0x78a5636f, 0x84c87814, 0x8cc70208, 0x90befffa, 0xa4506ceb, 0xbef9a3f7, 0xc67178f2]

def sha256Init : List Nat := [
  0x6a09e667, 0xbb67ae85, 0x3c6ef372, 0xa54ff53a, 0x510e527f, 0x9b05688c, 0x1f83d9ab, 0x5be0cd19]

/-- Message padding: a 0x80 byte, zeros up to 56 modulo 64, then the bit length on 8 bytes. -/
def sha256Pad (m : Bytes) : Bytes :=
  let l := m.length
  let z := (119 - l % 64) % 64
  m ++ 128 :: List.replicate z 0 ++ (List.range 8).map fun i => (l * 8) >>> (8 * (7 - i)) % 256

/-- Big-endian 32-bit words of a byte sequence, four bytes at a time. -/
def beWords : Bytes → List Nat
  | a :: b :: c :: d :: rest => (a * 16777216 + b * 65536 + c * 256 + d) :: beWords rest
  | _ => []

/-- Extends the message schedule (kept newest word first) by `n` words. -/
def sha256Extend : Nat → List Nat → List Nat
  | 0, ws => ws
  | n + 1, ws =>
    let w2 := ws.getD 1 0
    let w7 := ws.getD 6 0
    let w15 := ws.getD 14 0
    let w16 := ws.getD 15 0
    let s0 := rotr 7 w15 ^^^ rotr 18 w15 ^^^ (w15 >>> 3)
    let s1 := rotr 17 w2 ^^^ rotr 19 w2 ^^^ (w2 >>> 10)
    sha256Extend n (((w16 + s0 + w7 + s1) % w32) :: ws)

/-- One round of the compression function, on the working variables `a..h`. -/
def sha256Round (st : List Nat) (kw : Nat × Nat) : List Nat :=
  match st with
  | [a, b, c, d, e, f, g, h] =>
    let s1 := rotr 6 e ^^^ rotr 11 e ^^^ rotr 25 e
    let ch := (e &&& f) ^^^ ((e ^^^ (w32 - 1)) &&& g)
    let t1 := (h + s1 + ch + kw.1 + kw.2) % w32
    let s0 := rotr 2 a ^^^ rotr 13 a ^^^ rotr 22 a
    let maj := (a &&& b) ^^^ (a &&& c) ^^^ (b &&& c)
    let t2 := (s0 + maj) % w32
    [(t1 + t2) % w32, a, b, c, (d + t1) % w32, e, f, g]
  | _ => st

def sha256Block (h : List Nat) (block : List Nat) : List Nat :=
  let ws := (sha256Extend 48 block.reverse).reverse
  List.zipWith (fun x y => (x + y) % w32) h ((sha256K.zip ws).foldl sha256Round h)

/-- Folds the compression function over `n` consecutive 16-word blocks. -/
def sha256Blocks : Nat → List Nat → List Nat → List Nat
  | 0, h, _ => h
  | n + 1, h, ws => sha256Blocks n (sha256Block h (ws.take 16)) (ws.drop 16)

/-- The SHA-256 hash of a message: `h := sha256.New(); h.Write(m); h.Sum(nil)`. -/
def sha256Sum (m : Bytes) : Bytes :=
  let ws := beWords (sha256Pad m)
  (sha256Blocks (ws.length / 16) sha256Init ws).flatMap fun x =>
    [x / 16777216, x / 65536 % 256, x / 256 % 256, x % 256]

/-! ## crypto/hmac over SHA-256 (RFC 2104) -/

def hmacSha256 (key msg : Bytes) : Bytes :=
  let k := if key.length > 64 then sha256Sum key else key
  let k := k ++ List.replicate (64 - k.length) 0
  sha256Sum (k.map (· ^^^ 0x5c) ++ sha256Sum (k.map (· ^^^ 0x36) ++ msg))

/-! ## time: `time.Minute` and `Time.UTC().Format(http.TimeFormat)` -/

/-- One minute, in nanoseconds. -/
def time.Minute : Nat := 60 * 1000000000

def dayNames : List String := ["Sun", "Mon", "Tue", "Wed", "Thu", "Fri", "Sat"]

def monthNames : List String :=
  ["Jan", "Feb", "Mar", "Apr", "May", "Jun", "Jul", "Aug", "Sep", "Oct", "Nov", "Dec"]

/-- Decimal digits of `n`, left-padded with zeros to at least `k` digits. -/
def padDigits (k n : Nat) : String :=
  let ds := Nat.toDigits 10 n
  String.mk (List.replicate (k - ds.length) '0' ++ ds)

/-- Year, month (1..12) and day of month of the day that is `days` days after 1970-01-01. -/
def civilFromDays (days : Nat) : Nat × Nat × Nat :=
  let z := days + 719468
  let era := z / 146097
  let doe := z % 146097
  let yoe := (doe - doe / 1460 + doe / 36524 - doe / 146096) / 365
  let doy := doe - (365 * yoe + yoe / 4 - yoe / 100)
  let mp := (5 * doy + 2) / 153
  let d := doy - (153 * mp + 2) / 5 + 1
  let m := if mp < 10 then mp + 3 else mp - 9
  (yoe + era * 400 + (if m ≤ 2 then 1 else 0), m, d)

/-- The layout "Mon, 02 Jan 2006 15:04:05 GMT" applied to a time given in Unix nanoseconds. -/
def httpTimeFormat (unixNano : Nat) : String :=
  let secs := unixNano / 1000000000
  let days := secs / 86400
  let rem := secs % 86400
  let (y, m, d) := civilFromDays days
  dayNames.getD ((days + 4) % 7) "" ++ ", " ++ padDigits 2 d ++ " " ++ monthNames.getD (m - 1) ""
    ++ " " ++ padDigits 4 y ++ " " ++ padDigits 2 (rem / 3600) ++ ":"
    ++ padDigits 2 (rem % 3600 / 60) ++ ":" ++ padDigits 2 (rem % 60) ++ " GMT"

/-! ## context -/

/-- A context is the background context, or is derived from a parent by `WithCancel` (with the
identity of its cancel function) or by `WithDeadline`. -/
inductive Context where
  | background
  | withCancel (id : Nat) (parent : Context)
  | withDeadline (d : Nat) (parent : Context)
  deriving DecidableEq

/-- `ctx.Deadline()`: the earliest deadline on the chain of parents, if there is one. -/
def Context.Deadline : Context → Option Nat
  | .background => none
  | .withCancel _ p => p.Deadline
  | .withDeadline d p =>
    match p.Deadline with
    | none => some d
    | some d' => some (min d d')

/-- Whether calling the cancel function `id` cancels this context: it does when the context is
the one `id` was returned with, or a descendant of it. -/
def Context.cancelledBy : Context → Nat → Bool
  | .background, _ => false
  | .withCancel i p, id => i == id || p.cancelledBy id
  | .withDeadline _ p, id => p.cancelledBy id

/-- `context.WithTimeout(parent, d)` called at time `now`. -/
def Context.WithTimeout (parent : Context) (d now : Nat) : Context :=
  .withDeadline (now + d) parent

/-! ## net/http: headers, requests, responses -/

def isTokenChar (c : Char) : Bool :=
  c.isAlphanum || "!#$%&'*+-.^_|~".toList.contains c || c.toNat == 96

/-- Upper-cases the first letter and every letter after a hyphen, lower-cases the others. -/
def canonChars : Bool → List Char → List Char
  | _, [] => []
  | up, c :: cs => (if up then c.toUpper else c.toLower) :: canonChars (c == '-') cs

/-- `http.CanonicalHeaderKey`: a key with a byte that is not a token character is left as is. -/
def CanonicalHeaderKey (k : String) : String :=
  if k.toList.all isTokenChar then String.mk (canonChars true k.toList) else k

/-- A header: the (canonical key, value) pairs in the order they were added. -/
abbrev Header := List (String × String)

/-- `h.Add(key, value)`. -/
def Header.Add (h : Header) (key value : String) : Header :=
  h ++ [(CanonicalHeaderKey key, value)]

/-- `h.Get(key)`: the first value under the canonical key, or the empty string. -/
def Header.Get (h : Header) (key : String) : String :=
  match h.find? (fun kv => kv.1 == CanonicalHeaderKey key) with
  | some kv => kv.2
  | none => ""

structure Request where
  Method : String
  URL : String
  Header : Header
  Body : Bytes
  ctx : Context
  deriving DecidableEq

structure Response where
  StatusCode : Nat
  deriving DecidableEq

/-- `r.WithContext(ctx)`. -/
def Request.WithContext (r : Request) (ctx : Context) : Request := { r with ctx := ctx }

/-- `r.Header.Add(key, value)`. -/
def Request.addHeader (r : Request) (key value : String) : Request :=
  { r with Header := r.Header.Add key value }

/-- `http.NewRequest(method, url, body)`: fails when the URL does not parse (`parseURL` gives the
error of `url.Parse`, a library function taken as a parameter); otherwise a request with an
empty header and the background context. -/
def NewRequest (parseURL : String → Option Error) (method url : String) (body : Bytes) :
    Except Error Request :=
  match parseURL url with
  | some err => .error err
  | none => .ok { Method := method, URL := url, Header := [], Body := body, ctx := .background }

/-! ## httpsignatures -/

/-- Modelled from the spec: the signature the httpsignatures package computes, whose code is not
among the sources: key id, algorithm name, covered headers and the signature value. -/
structure Signature where
  KeyID : String
  Algorithm : String
  Headers : List String
  Value : String
  deriving DecidableEq

/-- Modelled from the spec: the value of the signature field, which names the key id, the
algorithm, the signature value and the covered headers (HTTP Signatures convention); the package
that renders it is not among the sources. -/
def Signature.render (sig : Signature) : String :=
  "keyId=\"" ++ sig.KeyID ++ "\",algorithm=\"" ++ sig.Algorithm ++ "\",signature=\""
    ++ sig.Value ++ "\",headers=\"" ++ " ".intercalate sig.Headers ++ "\""

/-- Modelled from the spec: a request signer of the httpsignatures package, whose code is not
among the sources. Signing computes a signature from a key id, a key and a request, or fails. -/
structure Signer where
  sign : String → String → Request → Except Error Signature

/-- Modelled from the spec: `SignRequest` of the httpsignatures package, not among the sources:
the computed signature is attached to the request in the `Signature` header; on a signing error
the request is left as it is and the error is returned. -/
def Signer.SignRequest (sg : Signer) (id key : String) (r : Request) : Request × Option Error :=
  match sg.sign id key r with
  | .ok sig => (r.addHeader "Signature" sig.render, none)
  | .error err => (r, some err)

/-- Modelled from the spec: a signing algorithm of the httpsignatures package: its name and its
keyed hash. -/
structure Algorithm where
  name : String
  hash : Bytes → Bytes → Bytes

/-- Modelled from the spec: `httpsignatures.AlgorithmHmacSha256`, HMAC-SHA256. -/
def AlgorithmHmacSha256 : Algorithm := ⟨"hmac-sha256", hmacSha256⟩

/-- Modelled from the spec: one line `<lowercased-header-name>: <value>` of the canonical
signature string; a covered header without a value is a signing error. -/
def headerLine (r : Request) (header : String) : Except Error String :=
  let value := r.Header.Get header
  if value = "" then .error ("Missing required header '" ++ header ++ "'")
  else .ok (header ++ ": " ++ value)

/-- Modelled from the spec: the lines of the canonical signature string, in the declared header
order. -/
def signingLines (r : Request) : List String → Except Error (List String)
  | [] => .ok []
  | h :: hs =>
    match headerLine r h with
    | .error err => .error err
    | .ok line =>
      match signingLines r hs with
      | .error err => .error err
      | .ok lines => .ok (line :: lines)

/-- Modelled from the spec: the canonical signature string: the header lines joined by
newline. -/
def signingString (hs : List String) (r : Request) : Except Error String :=
  match signingLines r hs with
  | .error err => .error err
  | .ok lines => .ok ("\n".intercalate lines)

/-- `strings.ToLower`, character by character. -/
def toLower (s : String) : String := String.mk (s.toList.map Char.toLower)

/-- Modelled from the spec: `httpsignatures.NewSigner(algorithm, headers...)`, not among the
sources: the signature is the base64 of the keyed hash of the canonical signature string over
the (lower-cased) header names. -/
def NewSigner (algorithm : Algorithm) (hs : List String) : Signer where
  sign id key r :=
    match signingString (hs.map toLower) r with
    | .error err => .error err
    | .ok str =>
      .ok { KeyID := id, Algorithm := algorithm.name, Headers := hs.map toLower,
            Value := base64Std (algorithm.hash (bytesOf key) (bytesOf str)) }

/-! ## core: the types of the webhook payload -/

/-- Modelled from the spec: `core.System`, whose declaration is not among the sources: the
descriptor of the deployment, held as the JSON text the encoder emits for it. -/
structure System where
  encoded : String
  deriving DecidableEq

/-- Modelled from the spec: `core.WebhookData`, whose declaration is not among the sources: an
`Event` classifier string and arbitrary event-specific fields, held as the JSON members the
encoder emits for the value (name and encoded value, in field order). -/
structure WebhookData where
  Event : String
  fields : List (String × String)
  deriving DecidableEq

/-! ## plugin/webhook -/

/-- The required http headers. -/
def headers : List String := ["date", "digest"]

/-- The package's signer. -/
def signer : Signer := NewSigner AlgorithmHmacSha256 headers

/-- The wrapper that is serialized: the embedded (pointer to the) webhook data and the system
field, tagged `json:"system,omitempty"`. -/
structure payload where
  WebhookData : Option WebhookData
  System : Option System
  deriving DecidableEq

/-- The JSON members `json.Marshal` emits for a `payload`: the promoted members of the embedded
value (none through a nil pointer), except one named `system`, which the wrapper's own field of
that name hides whatever its value; then the wrapper's `system` member, omitted when the pointer
is nil. -/
def payload.fields (p : payload) : List (String × String) :=
  (match p.WebhookData with
    | none => []
    | some d => d.fields.filter fun kv => kv.1 != "system")
  ++ (match p.System with
    | none => []
    | some sys => [("system", sys.encoded)])

/-- The JSON text of an object with the given members. -/
def encodeObject (ms : List (String × String)) : String :=
  "\x7b" ++ ",".intercalate (ms.map fun kv => "\"" ++ kv.1 ++ "\":" ++ kv.2) ++ "\x7d"

/-- The call `json.Marshal(wrapper)`; its error is discarded by the caller. -/
def json.Marshal (p : payload) : Bytes := bytesOf (encodeObject p.fields)

/-- The value of the member called `name`, if there is one. -/
def fieldValue (name : String) (ms : List (String × String)) : Option String :=
  (ms.find? fun kv => kv.1 == name).map Prod.snd

/-- What a run performed, in order. -/
inductive Effect where
  /-- The call `json.Marshal(wrapper)`. -/
  | marshal (wrapper : payload)
  /-- The call `s.send(endpoint, secret, event, data)`: one delivery attempt. -/
  | attempt (endpoint secret event : String) (data : Bytes)
  /-- The call `client.Do(req)`: the request goes to the network. -/
  | transmit (req : Request)
  /-- The call `res.Body.Close()`. -/
  | closeBody (res : Response)
  deriving DecidableEq

/-- A result together with the world after the run and the effects of the run. -/
structure Run (W α : Type) where
  val : α
  world : W
  trace : List Effect

/-- An HTTP client: `Do` maps a request and the world to a response and an error (either may be
nil) and the world afterwards. -/
abbrev Client (W : Type) := Request → W → (Option Response × Option Error) × W

/-- The outside world and the library state the package reads. -/
structure Env (W : Type) where
  /-- Reads the clock (`time.Now()`), in Unix nanoseconds. -/
  Now : W → Nat × W
  /-- The error of `url.Parse` on an endpoint, none when it is well formed. -/
  parseURL : String → Option Error
  /-- The signer held in the package variable `signer`. Its code belongs to a library outside
  the sources, so it is supplied by the environment; `Webhook.signer` is the one the package
  builds. -/
  signer : Signer
  /-- The client `http.DefaultClient`. -/
  DefaultClient : Client W

/-- Modelled from the spec: the package's `Config`, whose declaration is not among the sources:
the fields `New` reads. -/
structure Config where
  Endpoint : List String
  Secret : String
  System : Option System

structure sender (W : Type) where
  Client : Option (Client W)
  Endpoints : List String
  Secret : String
  System : Option System

/-- `New` returns a new Webhook sender. -/
def New {W : Type} (config : Config) : sender W :=
  { Client := none
    Endpoints := config.Endpoint
    Secret := config.Secret
    System := config.System }

def digest (data : Bytes) : String :=
  base64Std (sha256Sum data)

def sender.client {W : Type} (s : sender W) (env : Env W) : Webhook.Client W :=
  match s.Client with
  | none => env.DefaultClient
  | some c => c

/-- One delivery: `send` builds the request, signs it and transmits it. The error of
`SignRequest` is assigned to `err` and overwritten by the error of `Do`. -/
def sender.send {W : Type} (s : sender W) (env : Env W) (endpoint secret event : String)
    (data : Bytes) (w : W) : Run W (Option Error) :=
  let (t0, w) := env.Now w
  let ctx := Context.background
  let ctx := ctx.WithTimeout time.Minute t0
  let buf := data
  match NewRequest env.parseURL "POST" endpoint buf with
  | .error err => ⟨some err, w, []⟩
  | .ok req =>
    let req := req.WithContext ctx
    let req := req.addHeader "X-Drone-Event" event
    let req := req.addHeader "Content-Type" "application/json"
    let req := req.addHeader "Digest" ("SHA-256=" ++ digest data)
    let (t1, w) := env.Now w
    let req := req.addHeader "Date" (httpTimeFormat t1)
    let (req, err) := env.signer.SignRequest "hmac-key" s.Secret req
    let ((res, err), w) := s.client env req w
    match res with
    | some res => ⟨err, w, [.transmit req, .closeBody res]⟩
    | none => ⟨err, w, [.transmit req]⟩

/-- How a call of `Send` ends: it returns an error (nil for none), or it panics. -/
inductive Outcome where
  | returned (err : Option Error)
  | panicked
  deriving DecidableEq

/-- The loop of `Send` over the endpoints. Evaluating the argument `in.Event` on a nil payload
panics before `send` is called. -/
def sender.Send.loop {W : Type} (s : sender W) (env : Env W) (hook : Option WebhookData)
    (data : Bytes) : List String → W → Run W Outcome
  | [], w => ⟨.returned none, w, []⟩
  | endpoint :: rest, w =>
    match hook with
    | none => ⟨.panicked, w, []⟩
    | some d =>
      let r := s.send env endpoint s.Secret d.Event data w
      match r.val with
      | some err =>
        ⟨.returned (some err), r.world, .attempt endpoint s.Secret d.Event data :: r.trace⟩
      | none =>
        let k := sender.Send.loop s env hook data rest r.world
        ⟨k.val, k.world, .attempt endpoint s.Secret d.Event data :: r.trace ++ k.trace⟩

/-- `Send` sends the JSON encoded webhook to the global HTTP endpoints. The payload `hook` is a
pointer: none is nil. The context `ctx` is not used. -/
def sender.Send {W : Type} (s : sender W) (env : Env W) (ctx : Context)
    (hook : Option WebhookData) (w : W) : Run W Outcome :=
  if s.Endpoints.length = 0 then ⟨.returned none, w, []⟩
  else
    let wrapper : payload := { WebhookData := hook, System := s.System }
    let data := json.Marshal wrapper
    let r := sender.Send.loop s env hook data s.Endpoints w
    ⟨r.val, r.world, .marshal wrapper :: r.trace⟩

/-! ## Reading a trace -/

/-- The endpoints of the delivery attempts, in order. -/
def attempts : List Effect → List String
  | [] => []
  | .attempt endpoint _ _ _ :: es => endpoint :: attempts es
  | _ :: es => attempts es

/-- The requests that went to the network, in order. -/
def transmitted : List Effect → List Request
  | [] => []
  | .transmit req :: es => req :: transmitted es
  | _ :: es => transmitted es

/-- The values that were serialized, in order. -/
def marshalled : List Effect → List payload
  | [] => []
  | .marshal p :: es => p :: marshalled es
  | _ :: es => marshalled es

/-- The arguments (secret, event, data) of the delivery attempts, in order. -/
def attemptArgs : List Effect → List (String × String × Bytes)
  | [] => []
  | .attempt _ secret event data :: es => (secret, event, data) :: attemptArgs es
  | _ :: es => attemptArgs es

/-- The delivery the loop of `Send` makes for one endpoint: the call of `send` with the sender's
secret, the payload's event and the serialized body. There is none for a nil payload. -/
def sender.deliver {W : Type} (s : sender W) (env : Env W) (hook : Option WebhookData)
    (endpoint : String) (w : W) : Option (Run W (Option Error)) :=
  hook.map fun d =>
    s.send env endpoint s.Secret d.Event (json.Marshal { WebhookData := hook, System := s.System }) w

/-- Deliveries to the endpoints `es`, one after the other from world `w`, all return no error
and leave the world `w'`. -/
def sender.Delivered {W : Type} (s : sender W) (env : Env W) (hook : Option WebhookData) :
    List String → W → W → Prop
  | [], w, w' => w' = w
  | e :: es, w, w' =>
    ∃ r, s.deliver env hook e w = some r ∧ r.val = none ∧ sender.Delivered s env hook es r.world w'

/-- The request `send` has built when it calls the signer (lines 76 to 90): `t0` is the clock
read by `WithTimeout`, `t1` the clock read for the `Date` header. -/
def builtRequest (endpoint event : String) (data : Bytes) (t0 t1 : Nat) : Request :=
  { Method := "POST", URL := endpoint,
    Header := [("X-Drone-Event", event), ("Content-Type", "application/json"),
      ("Digest", "SHA-256=" ++ digest data), ("Date", httpTimeFormat t1)],
    Body := data, ctx := .withDeadline (t0 + time.Minute) .background }

/-- The request `send` transmits from world `w`: the built request after `SignRequest`. -/
def sentRequest {W : Type} (s : sender W) (env : Env W) (endpoint event : String) (data : Bytes)
    (w : W) : Request :=
  (env.signer.SignRequest "hmac-key" s.Secret
    (builtRequest endpoint event data (env.Now w).1 (env.Now (env.Now w).2).1)).1

/-- The signature the spec describes for a secret and the values of the `Date` and `Digest`
headers: key id `hmac-key`, algorithm `hmac-sha256`, covered headers `date` then `digest`, and
the base64 of the HMAC-SHA256, keyed by the secret, of the two lines `date: ...` and
`digest: ...`. -/
def expectedSignature (secret date dig : String) : Signature :=
  { KeyID := "hmac-key", Algorithm := "hmac-sha256", Headers := ["date", "digest"],
    Value := base64Std (hmacSha256 (bytesOf secret)
      (bytesOf ("date: " ++ date ++ "\ndigest: " ++ dig))) }

/-- The deadline the spec describes for an outgoing request: the earlier of the deadline of the
caller's context and one minute after the attempt starts. -/
def combinedDeadline (caller : Context) (start : Nat) : Nat :=
  match caller.Deadline with
  | none => start + time.Minute
  | some d => min d (start + time.Minute)

/-! ## A small world for examples

The world is a counter of clock reads and round trips; the clock shows one second per step from
2023-11-14 22:13:20 UTC. -/

/-- A client whose endpoint `http://down.example` refuses connections and whose other endpoints
answer every request with status 500. -/
def exampleClient : Client Nat := fun req w =>
  if req.URL = "http://down.example" then ((none, some "connection refused"), w + 1)
  else ((some ⟨500⟩, none), w + 1)

/-- An environment with the package's signer, in which only the endpoint `://bad` fails to
parse. -/
def exampleEnv : Env Nat where
  Now w := ((1700000000 + w) * 1000000000, w + 1)
  parseURL u := if u = "://bad" then some "missing protocol scheme" else none
  signer := signer
  DefaultClient := exampleClient

/-- The event of the spec's example. -/
def exampleHook : WebhookData :=
  { Event := "build.created"
    fields := [("event", "\"build.created\""), ("repo", "\"octo/demo\"")] }

/-- A sender with secret `s3cr3t` and a configured system. -/
def exampleSender (endpoints : List String) : sender Nat :=
  New { Endpoint := endpoints, Secret := "s3cr3t",
        System := some ⟨"\x7b\"host\":\"drone.example\"\x7d"⟩ }

/-- A payload that has a `system` member of its own. -/
def exampleHookWithSystem : WebhookData :=
  { Event := "build.created"
    fields := [("event", "\"build.created\""), ("system", "\x7b\"host\":\"other.example\"\x7d")] }

/-- A caller's context: cancel function 7, and a deadline five seconds after the first clock
read of the example world. -/
def exampleCallerContext : Context :=
  .withDeadline 1700000005000000000 (.withCancel 7 .background)

variable {W : Type}

/-! ## Lemmas on traces -/

theorem attempts_append (xs ys : List Effect) :
    attempts (xs ++ ys) = attempts xs ++ attempts ys := by
  induction xs with
  | nil => rfl
  | cons x xs ih => cases x <;> simp [attempts, ih]

theorem transmitted_append (xs ys : List Effect) :
    transmitted (xs ++ ys) = transmitted xs ++ transmitted ys := by
  induction xs with
  | nil => rfl
  | cons x xs ih => cases x <;> simp [transmitted, ih]

theorem marshalled_append (xs ys : List Effect) :
    marshalled (xs ++ ys) = marshalled xs ++ marshalled ys := by
  induction xs with
  | nil => rfl
  | cons x xs ih => cases x <;> simp [marshalled, ih]

theorem attemptArgs_append (xs ys : List Effect) :
    attemptArgs (xs ++ ys) = attemptArgs xs ++ attemptArgs ys := by
  induction xs with
  | nil => rfl
  | cons x xs ih => cases x <;> simp [attemptArgs, ih]

/-! ## Lemmas on one delivery -/

theorem canon_event : CanonicalHeaderKey "X-Drone-Event" = "X-Drone-Event" := by decide
theorem canon_ctype : CanonicalHeaderKey "Content-Type" = "Content-Type" := by decide
theorem canon_Digest : CanonicalHeaderKey "Digest" = "Digest" := by decide
theorem canon_Date : CanonicalHeaderKey "Date" = "Date" := by decide
theorem canon_date : CanonicalHeaderKey "date" = "Date" := by decide
theorem canon_digest : CanonicalHeaderKey "digest" = "Digest" := by decide
theorem canon_Signature : CanonicalHeaderKey "Signature" = "Signature" := by decide


theorem send_malformed (s : sender W) (env : Env W) (endpoint secret event : String)
    (data : Bytes) (w : W) (err : Error) (h : env.parseURL endpoint = some err) :
    s.send env endpoint secret event data w = ⟨some err, (env.Now w).2, []⟩ := by
  simp [sender.send, NewRequest, h]

theorem send_wellformed (s : sender W) (env : Env W) (endpoint secret event : String)
    (data : Bytes) (w : W) (h : env.parseURL endpoint = none) :
    s.send env endpoint secret event data w =
      ⟨(s.client env (sentRequest s env endpoint event data w) (env.Now (env.Now w).2).2).1.2,
       (s.client env (sentRequest s env endpoint event data w) (env.Now (env.Now w).2).2).2,
       .transmit (sentRequest s env endpoint event data w) ::
         (match (s.client env (sentRequest s env endpoint event data w)
            (env.Now (env.Now w).2).2).1.1 with
          | some res => [.closeBody res]
          | none => [])⟩ := by
  simp only [sender.send, NewRequest, h, sentRequest, builtRequest, Request.WithContext,
    Request.addHeader, Header.Add, Context.WithTimeout, canon_event, canon_ctype, canon_Digest,
    canon_Date, List.nil_append, List.cons_append, List.singleton_append]
  rcases hc : s.client env _ _ with ⟨⟨res, err⟩, w'⟩
  cases res <;> simp [hc, Nat.add_comm]

theorem send_attempts (s : sender W) (env : Env W) (endpoint secret event : String)
    (data : Bytes) (w : W) : attempts (s.send env endpoint secret event data w).trace = [] := by
  cases h : env.parseURL endpoint with
  | some err => rw [send_malformed _ _ _ _ _ _ _ _ h]; rfl
  | none =>
    rw [send_wellformed _ _ _ _ _ _ _ h]
    cases (s.client env _ _).1.1 <;> rfl

theorem send_marshalled (s : sender W) (env : Env W) (endpoint secret event : String)
    (data : Bytes) (w : W) : marshalled (s.send env endpoint secret event data w).trace = [] := by
  cases h : env.parseURL endpoint with
  | some err => rw [send_malformed _ _ _ _ _ _ _ _ h]; rfl
  | none =>
    rw [send_wellformed _ _ _ _ _ _ _ h]
    cases (s.client env _ _).1.1 <;> rfl

theorem send_attemptArgs (s : sender W) (env : Env W) (endpoint secret event : String)
    (data : Bytes) (w : W) : attemptArgs (s.send env endpoint secret event data w).trace = [] := by
  cases h : env.parseURL endpoint with
  | some err => rw [send_malformed _ _ _ _ _ _ _ _ h]; rfl
  | none =>
    rw [send_wellformed _ _ _ _ _ _ _ h]
    cases (s.client env _ _).1.1 <;> rfl

theorem send_transmitted (s : sender W) (env : Env W) (endpoint secret event : String)
    (data : Bytes) (w : W) :
    transmitted (s.send env endpoint secret event data w).trace =
      if (env.parseURL endpoint).isNone then [sentRequest s env endpoint event data w] else [] := by
  cases h : env.parseURL endpoint with
  | some err => rw [send_malformed _ _ _ _ _ _ _ _ h]; rfl
  | none =>
    rw [send_wellformed _ _ _ _ _ _ _ h]
    cases (s.client env _ _).1.1 <;> rfl

theorem send_ok_wellformed (s : sender W) (env : Env W) (endpoint secret event : String)
    (data : Bytes) (w : W) (h : (s.send env endpoint secret event data w).val = none) :
    env.parseURL endpoint = none := by
  cases hp : env.parseURL endpoint with
  | none => rfl
  | some err => rw [send_malformed _ _ _ _ _ _ _ _ hp] at h; cases h

theorem SignRequest_URL (sg : Signer) (id key : String) (r : Request) :
    (sg.SignRequest id key r).1.URL = r.URL := by
  unfold Signer.SignRequest
  cases sg.sign id key r <;> rfl

theorem SignRequest_Body (sg : Signer) (id key : String) (r : Request) :
    (sg.SignRequest id key r).1.Body = r.Body := by
  unfold Signer.SignRequest
  cases sg.sign id key r <;> rfl

theorem SignRequest_ctx (sg : Signer) (id key : String) (r : Request) :
    (sg.SignRequest id key r).1.ctx = r.ctx := by
  unfold Signer.SignRequest
  cases sg.sign id key r <;> rfl

theorem sentRequest_URL (s : sender W) (env : Env W) (endpoint event : String) (data : Bytes)
    (w : W) : (sentRequest s env endpoint event data w).URL = endpoint := by
  simp [sentRequest, SignRequest_URL, builtRequest]

theorem sentRequest_Body (s : sender W) (env : Env W) (endpoint event : String) (data : Bytes)
    (w : W) : (sentRequest s env endpoint event data w).Body = data := by
  simp [sentRequest, SignRequest_Body, builtRequest]

/-! ## Lemmas on the loop -/

theorem loop_cons (s : sender W) (env : Env W) (d : WebhookData) (data : Bytes)
    (e : String) (es : List String) (w : W) :
    sender.Send.loop s env (some d) data (e :: es) w =
      match (s.send env e s.Secret d.Event data w).val with
      | some err => ⟨.returned (some err), (s.send env e s.Secret d.Event data w).world,
          .attempt e s.Secret d.Event data :: (s.send env e s.Secret d.Event data w).trace⟩
      | none =>
        ⟨(sender.Send.loop s env (some d) data es (s.send env e s.Secret d.Event data w).world).val,
         (sender.Send.loop s env (some d) data es (s.send env e s.Secret d.Event data w).world).world,
         .attempt e s.Secret d.Event data :: (s.send env e s.Secret d.Event data w).trace ++
           (sender.Send.loop s env (some d) data es
             (s.send env e s.Secret d.Event data w).world).trace⟩ := by
  rw [sender.Send.loop]

/-- The loop over `pre ++ rest`, when the deliveries to `pre` all succeed, is the loop over
`rest` from the world they leave, after one attempt and one transmission per endpoint of
`pre`. -/
theorem loop_delivered (s : sender W) (env : Env W) (d : WebhookData) (rest : List String) :
    ∀ (pre : List String) (w w' : W), s.Delivered env (some d) pre w w' →
      ∃ tr, attempts tr = pre ∧ (transmitted tr).map Request.URL = pre ∧ marshalled tr = [] ∧
        sender.Send.loop s env (some d) (json.Marshal ⟨some d, s.System⟩) (pre ++ rest) w =
          ⟨(sender.Send.loop s env (some d) (json.Marshal ⟨some d, s.System⟩) rest w').val,
           (sender.Send.loop s env (some d) (json.Marshal ⟨some d, s.System⟩) rest w').world,
           tr ++ (sender.Send.loop s env (some d) (json.Marshal ⟨some d, s.System⟩) rest w').trace⟩ := by
  intro pre
  induction pre with
  | nil =>
    intro w w' h
    simp only [sender.Delivered] at h
    subst h
    exact ⟨[], rfl, rfl, rfl, rfl⟩
  | cons e es ih =>
    intro w w' h
    obtain ⟨r, hr, hval, hrest⟩ := h
    simp only [sender.deliver, Option.map_some', Option.some.injEq] at hr
    subst hr
    obtain ⟨tr, h1, h2, h3, h4⟩ := ih _ _ hrest
    refine ⟨.attempt e s.Secret d.Event (json.Marshal ⟨some d, s.System⟩) ::
      (s.send env e s.Secret d.Event (json.Marshal ⟨some d, s.System⟩) w).trace ++ tr, ?_, ?_, ?_, ?_⟩
    · simp [attempts, attempts_append, send_attempts, h1]
    · have hp := send_ok_wellformed _ _ _ _ _ _ _ hval
      simp [transmitted, transmitted_append, send_transmitted, hp, h2, sentRequest_URL]
    · simp [marshalled, marshalled_append, send_marshalled, h3]
    · rw [List.cons_append, loop_cons, hval]
      simp only [h4, List.append_assoc, List.cons_append]

/-! ## Lemmas on headers and on the signer -/

theorem SignRequest_Get (sg : Signer) (id key : String) (r : Request) (name : String)
    (h : CanonicalHeaderKey name ≠ "Signature") :
    (sg.SignRequest id key r).1.Header.Get name = r.Header.Get name := by
  unfold Signer.SignRequest
  cases sg.sign id key r with
  | error err => rfl
  | ok sig =>
    have hne : ("Signature" == CanonicalHeaderKey name) = false := by
      simpa using fun h' => h h'.symm
    simp only [Request.addHeader, Header.Add, Header.Get, canon_Signature, List.find?_append]
    cases hf : List.find? (fun kv => kv.1 == CanonicalHeaderKey name) r.Header with
    | some kv => simp
    | none => simp [List.find?, hne]

theorem built_Get_Digest (endpoint event : String) (data : Bytes) (t0 t1 : Nat) :
    (builtRequest endpoint event data t0 t1).Header.Get "Digest" = "SHA-256=" ++ digest data := by
  simp [builtRequest, Header.Get, canon_Digest, List.find?]

theorem built_Get_digest (endpoint event : String) (data : Bytes) (t0 t1 : Nat) :
    (builtRequest endpoint event data t0 t1).Header.Get "digest" = "SHA-256=" ++ digest data := by
  simp [builtRequest, Header.Get, canon_digest, List.find?]

theorem built_Get_Date (endpoint event : String) (data : Bytes) (t0 t1 : Nat) :
    (builtRequest endpoint event data t0 t1).Header.Get "Date" = httpTimeFormat t1 := by
  simp [builtRequest, Header.Get, canon_Date, List.find?]

theorem built_Get_date (endpoint event : String) (data : Bytes) (t0 t1 : Nat) :
    (builtRequest endpoint event data t0 t1).Header.Get "date" = httpTimeFormat t1 := by
  simp [builtRequest, Header.Get, canon_date, List.find?]

theorem built_Get_event (endpoint event : String) (data : Bytes) (t0 t1 : Nat) :
    (builtRequest endpoint event data t0 t1).Header.Get "X-Drone-Event" = event := by
  simp [builtRequest, Header.Get, canon_event, List.find?]

theorem built_Get_Signature (endpoint event : String) (data : Bytes) (t0 t1 : Nat) :
    (builtRequest endpoint event data t0 t1).Header.Get "Signature" = "" := by
  simp [builtRequest, Header.Get, canon_Signature, List.find?]

theorem append_ne_empty (a b : String) (h : b ≠ "") : a ++ b ≠ "" := by
  intro h'
  have hl := congrArg String.length h'
  rw [String.length_append] at hl
  have hb : b.length = 0 := by simp at hl; omega
  cases b with
  | mk l =>
    simp only [String.length, List.length_eq_zero] at hb
    subst hb
    exact h rfl

theorem httpTimeFormat_ne_empty (t : Nat) : httpTimeFormat t ≠ "" := by
  unfold httpTimeFormat
  exact append_ne_empty _ _ (by decide)

theorem digestHeader_ne_empty (data : Bytes) : "SHA-256=" ++ digest data ≠ "" := by
  intro h'
  have hl := congrArg String.length h'
  rw [String.length_append] at hl
  simp at hl
  exact absurd hl.1 (by decide)

theorem sentRequest_Get (s : sender W) (env : Env W) (endpoint event : String) (data : Bytes)
    (w : W) (name : String) (h : CanonicalHeaderKey name ≠ "Signature") :
    (sentRequest s env endpoint event data w).Header.Get name =
      (builtRequest endpoint event data (env.Now w).1 (env.Now (env.Now w).2).1).Header.Get
        name := by
  simp [sentRequest, SignRequest_Get _ _ _ _ _ h]

/-- The package's signer on a request: the signature over its `date` and `digest` values, or the
error for the first of the two that has no value. -/
theorem signer_sign (id key : String) (r : Request) :
    signer.sign id key r =
      if r.Header.Get "date" = "" then .error "Missing required header 'date'"
      else if r.Header.Get "digest" = "" then .error "Missing required header 'digest'"
      else .ok { KeyID := id, Algorithm := "hmac-sha256", Headers := ["date", "digest"],
                 Value := base64Std (hmacSha256 (bytesOf key)
                   (bytesOf ("date: " ++ r.Header.Get "date" ++ "\ndigest: "
                     ++ r.Header.Get "digest"))) } := by
  have h1 : toLower "date" = "date" := by decide
  have h2 : toLower "digest" = "digest" := by decide
  simp only [signer, NewSigner, headers, AlgorithmHmacSha256, List.map, h1, h2, signingString,
    signingLines, headerLine]
  by_cases hd : r.Header.Get "date" = ""
  · simp [hd]
  · by_cases hg : r.Header.Get "digest" = ""
    · simp [hd, hg]
    · simp only [hd, hg, if_false]
      have hs : "\n".intercalate ["date" ++ ": " ++ r.Header.Get "date",
          "digest" ++ ": " ++ r.Header.Get "digest"] =
          "date: " ++ r.Header.Get "date" ++ "\ndigest: " ++ r.Header.Get "digest" := by
        have e1 : ∀ x : String, "date" ++ (": " ++ x) = "date: " ++ x := fun x => by
          rw [← String.append_assoc]
          exact congrArg (· ++ x) (by decide : "date" ++ ": " = "date: ")
        have e2 : ∀ x : String, "\n" ++ ("digest" ++ (": " ++ x)) = "\ndigest: " ++ x :=
          fun x => by
            rw [← String.append_assoc, ← String.append_assoc]
            exact congrArg (· ++ x) (by decide : "\n" ++ "digest" ++ ": " = "\ndigest: ")
        simp only [String.intercalate, String.intercalate.go, String.append_assoc, e1, e2]
      rw [hs]

/-! ## What every attempt of one loop shares -/

theorem loop_nil_payload (s : sender W) (env : Env W) (data : Bytes) (es : List String) (w : W) :
    (sender.Send.loop s env none data es w).trace = [] := by
  cases es <;> rfl

theorem loop_marshalled (s : sender W) (env : Env W) (d : WebhookData) (data : Bytes) :
    ∀ (es : List String) (w : W),
      marshalled (sender.Send.loop s env (some d) data es w).trace = [] := by
  intro es
  induction es with
  | nil => intro w; rfl
  | cons e es ih =>
    intro w
    rw [loop_cons]
    split
    · simp [marshalled, send_marshalled]
    · simp [marshalled, marshalled_append, send_marshalled, ih]

theorem loop_attemptArgs (s : sender W) (env : Env W) (d : WebhookData) (data : Bytes) :
    ∀ (es : List String) (w : W),
      attemptArgs (sender.Send.loop s env (some d) data es w).trace =
        List.replicate (attempts (sender.Send.loop s env (some d) data es w).trace).length
          (s.Secret, d.Event, data) := by
  intro es
  induction es with
  | nil => intro w; rfl
  | cons e es ih =>
    intro w
    rw [loop_cons]
    split
    · simp [attemptArgs, attempts, send_attemptArgs, send_attempts, List.replicate]
    · simp [attemptArgs, attempts, attemptArgs_append, attempts_append, send_attemptArgs,
        send_attempts, ih, List.replicate]

theorem transmitted_attempt (endpoint secret event : String) (data : Bytes) (es : List Effect) :
    transmitted (.attempt endpoint secret event data :: es) = transmitted es := rfl

theorem loop_transmitted_map {α : Type} (s : sender W) (env : Env W) (d : WebhookData)
    (data : Bytes) (f : Request → α) (a : α)
    (hf : ∀ endpoint w, f (sentRequest s env endpoint d.Event data w) = a) :
    ∀ (es : List String) (w : W),
      (transmitted (sender.Send.loop s env (some d) data es w).trace).map f =
        List.replicate (transmitted (sender.Send.loop s env (some d) data es w).trace).length
          a := by
  intro es
  induction es with
  | nil => intro w; rfl
  | cons e es ih =>
    intro w
    rw [loop_cons]
    split
    · simp only [transmitted_attempt, send_transmitted]
      split <;> simp [hf, List.replicate]
    · simp only [List.cons_append, transmitted_attempt, transmitted_append, send_transmitted,
        List.map_append, List.length_append, ih]
      split <;> simp [hf, List.replicate, List.replicate_succ, Nat.add_comm 1]

theorem Send_transmitted_map {α : Type} (s : sender W) (env : Env W) (ctx : Context)
    (hook : Option WebhookData) (w : W) (f : Request → α) (a : α)
    (hf : ∀ endpoint event w,
      f (sentRequest s env endpoint event (json.Marshal ⟨hook, s.System⟩) w) = a) :
    (transmitted (s.Send env ctx hook w).trace).map f =
      List.replicate (transmitted (s.Send env ctx hook w).trace).length a := by
  unfold sender.Send
  split
  · rfl
  · cases hook with
    | none => simp [transmitted, loop_nil_payload]
    | some d =>
      simp only [transmitted]
      exact loop_transmitted_map s env d _ f a (fun endpoint w => hf endpoint d.Event w) _ _

theorem Send_marshalled (s : sender W) (env : Env W) (ctx : Context)
    (hook : Option WebhookData) (w : W) :
    marshalled (s.Send env ctx hook w).trace =
      (if s.Endpoints.length = 0 then [] else [⟨hook, s.System⟩]) := by
  unfold sender.Send
  split
  · rfl
  · cases hook with
    | none => simp [marshalled, loop_nil_payload]
    | some d => simp [marshalled, loop_marshalled]

theorem Send_attemptArgs (s : sender W) (env : Env W) (ctx : Context)
    (hook : Option WebhookData) (w : W) :
    attemptArgs (s.Send env ctx hook w).trace =
      List.replicate (attempts (s.Send env ctx hook w).trace).length
        (s.Secret, (hook.map WebhookData.Event).getD "", json.Marshal ⟨hook, s.System⟩) := by
  unfold sender.Send
  split
  · rfl
  · cases hook with
    | none => simp [attemptArgs, attempts, loop_nil_payload]
    | some d => simp [attemptArgs, attempts, loop_attemptArgs]

/-- A nil payload with a non-empty endpoint list: the wrapper is serialized, then evaluating
`in.Event` for the first endpoint panics; nothing is attempted. -/
theorem Send_nil_payload (s : sender W) (env : Env W) (ctx : Context) (w : W)
    (h : s.Endpoints ≠ []) :
    (s.Send env ctx none w).val = .panicked ∧ attempts (s.Send env ctx none w).trace = [] ∧
      transmitted (s.Send env ctx none w).trace = [] := by
  have hlen : ¬ s.Endpoints.length = 0 := fun h' => h (List.length_eq_zero.mp h')
  cases he : s.Endpoints with
  | nil => exact absurd he h
  | cons e es => simp [sender.Send, he, sender.Send.loop, attempts, transmitted]

/-! ## Known answers of the library functions -/

theorem base64Std_foobar : base64Std (bytesOf "foobar") = "Zm9vYmFy" := by decide

theorem base64Std_padding : base64Std (bytesOf "fo") = "Zm8=" ∧ base64Std (bytesOf "f") = "Zg==" := by
  decide

/-- The FIPS 180-4 example: the SHA-256 hash of "abc". -/
theorem sha256Sum_abc :
    sha256Sum (bytesOf "abc") =
      [0xba, 0x78, 0x16, 0xbf, 0x8f, 0x01, 0xcf, 0xea, 0x41, 0x41, 0x40, 0xde, 0x5d, 0xae, 0x22,
       0x23, 0xb0, 0x03, 0x61, 0xa3, 0x96, 0x17, 0x7a, 0x9c, 0xb4, 0x10, 0xff, 0x61, 0xf2, 0x00,
       0x15, 0xad] := by
  decide

set_option maxRecDepth 100000 in
/-- RFC 4231, test case 2: HMAC-SHA256 with key "Jefe". -/
theorem hmacSha256_jefe :
    hmacSha256 (bytesOf "Jefe") (bytesOf "what do ya want for nothing?") =
      [0x5b, 0xdc, 0xc1, 0x46, 0xbf, 0x60, 0x75, 0x4e, 0x6a, 0x04, 0x24, 0x26, 0x08, 0x95, 0x75,
       0xc7, 0x5a, 0x00, 0x3f, 0x08, 0x9d, 0x27, 0x39, 0x83, 0x9d, 0xec, 0x58, 0xb9, 0x64, 0xec,
       0x38, 0x43] := by
  decide

theorem httpTimeFormat_example :
    httpTimeFormat 1700000000000000005 = "Tue, 14 Nov 2023 22:13:20 GMT" ∧
      httpTimeFormat 0 = "Thu, 01 Jan 1970 00:00:00 GMT" ∧
      httpTimeFormat 951782400000000000 = "Tue, 29 Feb 2000 00:00:00 GMT" := by
  decide

set_option maxRecDepth 100000 in
/-- The request of the example: one endpoint, secret `s3cr3t`, event `build.created`. -/
theorem example_request :
    (transmitted ((exampleSender ["http://a.example"]).Send exampleEnv .background
        (some exampleHook) 0).trace).map (fun req => req.Header) =
      [[("X-Drone-Event", "build.created"), ("Content-Type", "application/json"),
        ("Digest", "SHA-256=3IO/OUICpu9XHy0HEYB0IyzBGaf7Kc3H+9Pavm9uX3U="),
        ("Date", "Tue, 14 Nov 2023 22:13:21 GMT"),
        ("Signature", "keyId=\"hmac-key\",algorithm=\"hmac-sha256\",signature=\"EvNImVqN9vH3Qy5PJxPhIUGniMu/VjARUsI+fDESxTo=\",headers=\"date digest\"")]] := by
  decide

/-- C2. No-op for an empty endpoint list: for every payload, nil included, and every secret and
system, `Send` returns no error, leaves the world as it is and performs no effect at all: no
delivery attempt, no transmission, no serialization. -/
theorem Send_no_endpoints (s : sender W) (env : Env W) (ctx : Context)
    (hook : Option WebhookData) (w : W) (h : s.Endpoints = []) :
    (s.Send env ctx hook w).val = .returned none ∧ (s.Send env ctx hook w).world = w ∧
      (s.Send env ctx hook w).trace = [] ∧ attempts (s.Send env ctx hook w).trace = [] ∧
      transmitted (s.Send env ctx hook w).trace = [] ∧
      marshalled (s.Send env ctx hook w).trace = [] := by
  simp [sender.Send, h, attempts, transmitted, marshalled]

theorem Send_no_endpoints_witness :
    ((exampleSender []).Send exampleEnv .background none 0).val = .returned none ∧
      ((exampleSender []).Send exampleEnv .background none 0).trace = [] :=
  have h := Send_no_endpoints (exampleSender []) exampleEnv .background none 0 rfl
  ⟨h.1, h.2.2.1⟩

/-- C1. Fan-out short-circuit: for every sender, world and payload, when the deliveries to
`e_1..e_(k-1)` (`pre`) return no error and the delivery to `e_k` (`e`) returns the error `E`,
`Send` returns exactly `E`, the delivery attempts are `e_1..e_k` in that order (`k` of them), the
requests that went to the network went to `e_1..e_(k-1)` and, if `e_k` is well formed, to `e_k`;
nothing is attempted for the endpoints after `e_k`. (No delivery is made for a nil payload, so
the premise holds for non-nil payloads only.) -/
theorem Send_first_failure (s : sender W) (env : Env W) (ctx : Context)
    (hook : Option WebhookData) (pre post : List String) (e : String) (E : Error) (w w' : W)
    (r : Run W (Option Error)) (hlist : s.Endpoints = pre ++ e :: post)
    (hpre : s.Delivered env hook pre w w') (hk : s.deliver env hook e w' = some r)
    (hE : r.val = some E) :
    (s.Send env ctx hook w).val = .returned (some E) ∧
      attempts (s.Send env ctx hook w).trace = pre ++ [e] ∧
      (attempts (s.Send env ctx hook w).trace).length = pre.length + 1 ∧
      (transmitted (s.Send env ctx hook w).trace).map Request.URL =
        pre ++ (if (env.parseURL e).isNone then [e] else []) ∧
      (s.Send env ctx hook w).world = r.world := by
  cases hook with
  | none => simp [sender.deliver] at hk
  | some d =>
    simp only [sender.deliver, Option.map_some', Option.some.injEq] at hk
    subst hk
    obtain ⟨tr, h1, h2, h3, h4⟩ := loop_delivered s env d (e :: post) pre w w' hpre
    have hne : ¬ (pre ++ e :: post).length = 0 := by simp
    simp only [sender.Send, hlist, hne, if_false, h4, loop_cons, hE]
    simp [attempts, attempts_append, transmitted, transmitted_append, h1, h2, send_attempts,
      send_transmitted, sentRequest_URL]
    split <;> simp [sentRequest_URL]

theorem Send_first_failure_witness :
    ((exampleSender ["http://a.example", "http://down.example", "http://c.example"]).Send
        exampleEnv .background (some exampleHook) 0).val = .returned (some "connection refused") ∧
      attempts ((exampleSender ["http://a.example", "http://down.example", "http://c.example"]).Send
        exampleEnv .background (some exampleHook) 0).trace
        = ["http://a.example", "http://down.example"] ∧
      (attempts ((exampleSender ["http://a.example", "http://down.example", "http://c.example"]).Send
        exampleEnv .background (some exampleHook) 0).trace).length = 2 :=
  have h := Send_first_failure
    (exampleSender ["http://a.example", "http://down.example", "http://c.example"]) exampleEnv
    .background (some exampleHook) ["http://a.example"] ["http://c.example"] "http://down.example"
    "connection refused" 0 3 _ rfl ⟨_, rfl, rfl, rfl⟩ rfl rfl
  ⟨h.1, h.2.1, h.2.2.1⟩

/-- C9. Full fan-out: for every endpoint list `e_1..e_n` and every non-nil payload, when every
delivery returns no error (one after the other, from the world the one before left), `Send`
returns no error, the delivery attempts are exactly the configured endpoints, each once (with
multiplicity) and in list order, and exactly one request went to each of them, in the same
order: no endpoint is tried again. -/
theorem Send_all_delivered (s : sender W) (env : Env W) (ctx : Context) (d : WebhookData)
    (w w' : W) (hall : s.Delivered env (some d) s.Endpoints w w') :
    (s.Send env ctx (some d) w).val = .returned none ∧
      attempts (s.Send env ctx (some d) w).trace = s.Endpoints ∧
      (transmitted (s.Send env ctx (some d) w).trace).map Request.URL = s.Endpoints ∧
      (s.Send env ctx (some d) w).world = w' := by
  by_cases hlen : s.Endpoints.length = 0
  · have hnil := List.length_eq_zero.mp hlen
    rw [hnil] at hall
    simp only [sender.Delivered] at hall
    simp [sender.Send, hlen, hnil, attempts, transmitted, hall]
  · obtain ⟨tr, h1, h2, h3, h4⟩ := loop_delivered s env d [] s.Endpoints w w' hall
    rw [List.append_nil] at h4
    simp only [sender.Send, hlen, if_false, h4]
    simp [sender.Send.loop, attempts, transmitted, h1, h2]

theorem Send_all_delivered_witness :
    ((exampleSender ["http://a.example", "http://b.example"]).Send exampleEnv .background
        (some exampleHook) 0).val = .returned none ∧
      attempts ((exampleSender ["http://a.example", "http://b.example"]).Send exampleEnv
        .background (some exampleHook) 0).trace = ["http://a.example", "http://b.example"] :=
  have h := Send_all_delivered (exampleSender ["http://a.example", "http://b.example"]) exampleEnv
    .background exampleHook 0 6 ⟨_, rfl, rfl, _, rfl, rfl, rfl⟩
  ⟨h.1, h.2.1⟩

/-- C3. The digest header: `digest` is the standard base64 of the SHA-256 hash of its argument,
and the request `send` transmits (there is one exactly when the endpoint is well formed) carries
the body bytes it was given and the `Digest` header `SHA-256=` followed by the base64 of the
SHA-256 hash of those bytes: a value in which neither the endpoint, the event, the secret, the
signer nor the clock occurs. -/
theorem send_Digest_header (s : sender W) (env : Env W) (endpoint secret event : String)
    (data : Bytes) (w : W) :
    digest data = base64Std (sha256Sum data) ∧
      (transmitted (s.send env endpoint secret event data w).trace).map
          (fun req => req.Header.Get "Digest") =
        (if (env.parseURL endpoint).isNone then ["SHA-256=" ++ base64Std (sha256Sum data)]
          else []) ∧
      (transmitted (s.send env endpoint secret event data w).trace).map Request.Body =
        (if (env.parseURL endpoint).isNone then [data] else []) := by
  refine ⟨rfl, ?_, ?_⟩
  · rw [send_transmitted]
    split
    · simp [sentRequest_Get _ _ _ _ _ _ _ (by decide : CanonicalHeaderKey "Digest" ≠ "Signature"),
        built_Get_Digest, digest]
    · rfl
  · rw [send_transmitted]
    split
    · simp [sentRequest_Body]
    · rfl

theorem signer_sign_expected (key : String) (r : Request) (hd : r.Header.Get "date" ≠ "")
    (hg : r.Header.Get "digest" ≠ "") :
    signer.sign "hmac-key" key r =
      .ok (expectedSignature key (r.Header.Get "date") (r.Header.Get "digest")) := by
  rw [signer_sign]
  simp [hd, hg, expectedSignature]

theorem signer_sign_built (key endpoint event : String) (data : Bytes) (t0 t1 : Nat) :
    signer.sign "hmac-key" key (builtRequest endpoint event data t0 t1) =
      .ok (expectedSignature key (httpTimeFormat t1) ("SHA-256=" ++ digest data)) := by
  have h := signer_sign_expected key (builtRequest endpoint event data t0 t1)
    (by rw [built_Get_date]; exact httpTimeFormat_ne_empty _)
    (by rw [built_Get_digest]; exact digestHeader_ne_empty _)
  rw [built_Get_date, built_Get_digest] at h
  exact h

theorem SignRequest_ok (sg : Signer) (id key : String) (r : Request) (sig : Signature)
    (h : sg.sign id key r = .ok sig) :
    (sg.SignRequest id key r).1 = r.addHeader "Signature" sig.render := by
  unfold Signer.SignRequest
  rw [h]

theorem SignRequest_built (key endpoint event : String) (data : Bytes) (t0 t1 : Nat) :
    (signer.SignRequest "hmac-key" key (builtRequest endpoint event data t0 t1)).1 =
      (builtRequest endpoint event data t0 t1).addHeader "Signature"
        (expectedSignature key (httpTimeFormat t1) ("SHA-256=" ++ digest data)).render :=
  SignRequest_ok _ _ _ _ _ (signer_sign_built _ _ _ _ _ _)

theorem sentRequest_signed (s : sender W) (env : Env W) (hs : env.signer = signer)
    (endpoint event : String) (data : Bytes) (w : W) :
    sentRequest s env endpoint event data w =
      (builtRequest endpoint event data (env.Now w).1 (env.Now (env.Now w).2).1).addHeader
        "Signature" (expectedSignature s.Secret (httpTimeFormat (env.Now (env.Now w).2).1)
          ("SHA-256=" ++ digest data)).render := by
  unfold sentRequest
  rw [hs]
  exact SignRequest_built _ _ _ _ _ _

/-- C4. The signature: the package's signer, on any key and any request, returns the signature
with key id `hmac-key`, algorithm `hmac-sha256`, covered headers `date` then `digest` and value
the base64 of the HMAC-SHA256, keyed by that key, of `date: <Date value>` newline
`digest: <Digest value>` (a function of the key and of the two values, with an error only when
one of the two headers has no value); and with that signer the request `send` transmits (one
exactly when the endpoint is well formed) carries in its `Signature` header the rendering of that
signature for the sender's secret and the request's own `Date` and `Digest` values. -/
theorem send_Signature_header (s : sender W) (env : Env W) (endpoint secret event : String)
    (data : Bytes) (w : W) (key : String) (r : Request) :
    signer.sign "hmac-key" key r =
      (if r.Header.Get "date" = "" then .error "Missing required header 'date'"
        else if r.Header.Get "digest" = "" then .error "Missing required header 'digest'"
        else .ok (expectedSignature key (r.Header.Get "date") (r.Header.Get "digest"))) ∧
      (transmitted (s.send { env with signer := signer } endpoint secret event data w).trace).map
          (fun req => req.Header.Get "Signature") =
        (transmitted (s.send { env with signer := signer } endpoint secret event data w).trace).map
          (fun req => (expectedSignature s.Secret (req.Header.Get "Date")
            (req.Header.Get "Digest")).render) ∧
      (transmitted (s.send { env with signer := signer } endpoint secret event data
          w).trace).length = (if (env.parseURL endpoint).isNone then 1 else 0) := by
  refine ⟨?_, ?_, ?_⟩
  · rw [signer_sign]; rfl
  · rw [send_transmitted]
    split
    · simp only [List.map_cons, List.map_nil, List.cons.injEq, and_true]
      rw [sentRequest_signed _ _ rfl]
      simp [Request.addHeader, Header.Add, Header.Get, builtRequest, canon_Signature, canon_Date,
        canon_Digest, List.find?]
    · rfl
  · rw [send_transmitted]
    split <;> rfl

/-! ## Where an error of `Send` comes from -/

theorem send_val_wellformed (s : sender W) (env : Env W) (endpoint secret event : String)
    (data : Bytes) (w : W) (h : env.parseURL endpoint = none) :
    (s.send env endpoint secret event data w).val =
      (s.client env (sentRequest s env endpoint event data w) (env.Now (env.Now w).2).2).1.2 := by
  rw [send_wellformed _ _ _ _ _ _ _ h]

theorem send_error_source (s : sender W) (env : Env W) (endpoint secret event : String)
    (data : Bytes) (w : W) (E : Error) (h : (s.send env endpoint secret event data w).val = some E) :
    env.parseURL endpoint = some E ∨ ∃ req w', (s.client env req w').1.2 = some E := by
  cases hp : env.parseURL endpoint with
  | some err =>
    rw [send_malformed _ _ _ _ _ _ _ _ hp] at h
    exact Or.inl h
  | none =>
    rw [send_val_wellformed _ _ _ _ _ _ _ hp] at h
    exact Or.inr ⟨_, _, h⟩

theorem loop_error_source (s : sender W) (env : Env W) (hook : Option WebhookData) (data : Bytes)
    (E : Error) :
    ∀ (es : List String) (w : W),
      (sender.Send.loop s env hook data es w).val = .returned (some E) →
        ∃ e ∈ es, env.parseURL e = some E ∨ ∃ req w', (s.client env req w').1.2 = some E := by
  intro es
  induction es with
  | nil => intro w h; simp [sender.Send.loop] at h
  | cons e es ih =>
    intro w h
    cases hook with
    | none => simp [sender.Send.loop] at h
    | some d =>
      rw [loop_cons] at h
      split at h
      · rename_i err herr
        simp only [Outcome.returned.injEq, Option.some.injEq] at h
        subst h
        exact ⟨e, List.mem_cons_self _ _, send_error_source _ _ _ _ _ _ _ _ herr⟩
      · obtain ⟨e', he', hsrc⟩ := ih _ h
        exact ⟨e', List.mem_cons_of_mem _ he', hsrc⟩

theorem Send_error_source (s : sender W) (env : Env W) (ctx : Context)
    (hook : Option WebhookData) (w : W) (E : Error)
    (h : (s.Send env ctx hook w).val = .returned (some E)) :
    ∃ e ∈ s.Endpoints, env.parseURL e = some E ∨ ∃ req w', (s.client env req w').1.2 = some E := by
  unfold sender.Send at h
  split at h
  · simp at h
  · exact loop_error_source s env hook _ E _ _ h

/-- C8. Response status is not inspected: for a well-formed endpoint, when the transport returns
a response `res`, whatever its status code, and no transport error, `send` returns no error.
Hence `Send` returns an error `E` only if some endpoint of the list does not parse, with error
`E`, or the transport returned the error `E` for some request; and when every endpoint is well
formed and the transport never returns an error, no response, 2xx or not, makes `Send` return
an error. -/
theorem send_ignores_status (s : sender W) (env : Env W) :
    (∀ (endpoint secret event : String) (data : Bytes) (w : W) (res : Response),
        env.parseURL endpoint = none →
        (s.client env (sentRequest s env endpoint event data w) (env.Now (env.Now w).2).2).1
          = (some res, none) →
        (s.send env endpoint secret event data w).val = none) ∧
      (∀ (ctx : Context) (hook : Option WebhookData) (w : W) (E : Error),
        (s.Send env ctx hook w).val = .returned (some E) →
        ∃ e ∈ s.Endpoints,
          env.parseURL e = some E ∨ ∃ req w', (s.client env req w').1.2 = some E) ∧
      (∀ (ctx : Context) (hook : Option WebhookData) (w : W),
        (∀ e ∈ s.Endpoints, env.parseURL e = none) →
        (∀ req w', (s.client env req w').1.2 = none) →
        ∀ E, (s.Send env ctx hook w).val ≠ .returned (some E)) := by
  refine ⟨?_, ?_, ?_⟩
  · intro endpoint secret event data w res hurl hres
    rw [send_val_wellformed _ _ _ _ _ _ _ hurl, hres]
  · intro ctx hook w E h
    exact Send_error_source s env ctx hook w E h
  · intro ctx hook w hurl hdo E h
    obtain ⟨e, he, hsrc⟩ := Send_error_source s env ctx hook w E h
    rcases hsrc with hsrc | ⟨req, w', hsrc⟩
    · rw [hurl e he] at hsrc
      cases hsrc
    · rw [hdo req w'] at hsrc
      cases hsrc

theorem send_ignores_status_witness :
    ((exampleSender ["http://a.example"]).client exampleEnv
        (sentRequest (exampleSender ["http://a.example"]) exampleEnv "http://a.example"
          "build.created" [] 0) 2).1 = (some ⟨500⟩, none) ∧
      ((exampleSender ["http://a.example"]).send exampleEnv "http://a.example" "s3cr3t"
        "build.created" [] 0).val = none :=
  ⟨rfl, (send_ignores_status (exampleSender ["http://a.example"]) exampleEnv).1
    "http://a.example" "s3cr3t" "build.created" [] 0 ⟨500⟩ rfl rfl⟩

/-! ## The request context -/

theorem sentRequest_ctx (s : sender W) (env : Env W) (endpoint event : String) (data : Bytes)
    (w : W) :
    (sentRequest s env endpoint event data w).ctx =
      .withDeadline ((env.Now w).1 + time.Minute) .background := by
  simp [sentRequest, SignRequest_ctx, builtRequest]

/-- C7 as stated fails: the caller's context has a deadline five seconds after the attempt
starts and is cancelled by cancel function 7, yet the context of the request that goes out has
its deadline a full minute after the attempt starts, not the earlier of the two, and is not
cancelled by that cancel function. -/
theorem Send_request_context_counterexample :
    (transmitted ((exampleSender ["http://a.example"]).Send exampleEnv exampleCallerContext
        (some exampleHook) 0).trace).map (fun req => req.ctx.Deadline)
      ≠ [some (combinedDeadline exampleCallerContext 1700000000000000000)] ∧
    (transmitted ((exampleSender ["http://a.example"]).Send exampleEnv exampleCallerContext
        (some exampleHook) 0).trace).map (fun req => req.ctx.Deadline)
      = [some 1700000060000000000] ∧
    combinedDeadline exampleCallerContext 1700000000000000000 = 1700000005000000000 ∧
    (transmitted ((exampleSender ["http://a.example"]).Send exampleEnv exampleCallerContext
        (some exampleHook) 0).trace).map (fun req => req.ctx.cancelledBy 7) = [false] ∧
    exampleCallerContext.cancelledBy 7 = true := by
  decide

/-- C7, as amended. The context of each outgoing request is derived from the background
context with the one-minute timeout alone: the request `send` transmits has the context
`WithTimeout(Background, time.Minute)` taken at the clock read `t0` that starts the attempt, so
its deadline is exactly `t0` plus one minute; `Send` does not use the caller's context (any two
contexts give the same run), and no cancel function cancels a request `Send` transmits. -/
theorem Send_request_context (s : sender W) (env : Env W) (ctx ctx' : Context)
    (hook : Option WebhookData) (w : W) (endpoint secret event : String) (data : Bytes)
    (id : Nat) :
    (transmitted (s.send env endpoint secret event data w).trace).map Request.ctx =
        (if (env.parseURL endpoint).isNone
          then [Context.background.WithTimeout time.Minute (env.Now w).1] else []) ∧
      (transmitted (s.send env endpoint secret event data w).trace).map
          (fun req => req.ctx.Deadline) =
        (if (env.parseURL endpoint).isNone then [some ((env.Now w).1 + time.Minute)] else []) ∧
      s.Send env ctx hook w = s.Send env ctx' hook w ∧
      (transmitted (s.Send env ctx hook w).trace).map (fun req => req.ctx.cancelledBy id) =
        List.replicate (transmitted (s.Send env ctx hook w).trace).length false := by
  refine ⟨?_, ?_, rfl, ?_⟩
  · rw [send_transmitted]
    split
    · simp [sentRequest_ctx, Context.WithTimeout]
    · rfl
  · rw [send_transmitted]
    split
    · simp [sentRequest_ctx, Context.Deadline]
    · rfl
  · exact Send_transmitted_map s env ctx hook w _ _ (fun _ _ _ => by
      rw [sentRequest_ctx]; rfl)

/-! ## The system field of the body -/

theorem fieldValue_fields (p : payload) :
    fieldValue "system" p.fields = p.System.map System.encoded := by
  have hnone : ∀ (l : List (String × String)),
      List.find? (fun kv => kv.1 == "system") (l.filter fun kv => kv.1 != "system") = none := by
    intro l
    rw [List.find?_eq_none]
    intro x hx
    have := (List.mem_filter.mp hx).2
    simpa using this
  unfold fieldValue payload.fields
  rw [List.find?_append]
  cases p.WebhookData with
  | none => cases p.System <;> simp [List.find?]
  | some d => simp only [hnone]; cases p.System <;> simp [List.find?]

/-- C5 as stated fails: the payload sets a `system` member of its own (host `other.example`), and
the body that is serialized and handed to the delivery carries the configured system (host
`drone.example`) instead of the payload's; with no configured system, the body carries no
`system` member at all. -/
theorem Send_system_field_counterexample :
    (marshalled ((exampleSender ["http://a.example"]).Send exampleEnv .background
        (some exampleHookWithSystem) 0).trace).map (fun p => fieldValue "system" p.fields)
      ≠ [fieldValue "system" exampleHookWithSystem.fields] ∧
    fieldValue "system" exampleHookWithSystem.fields
      = some "\x7b\"host\":\"other.example\"\x7d" ∧
    (marshalled ((exampleSender ["http://a.example"]).Send exampleEnv .background
        (some exampleHookWithSystem) 0).trace).map (fun p => fieldValue "system" p.fields)
      = [some "\x7b\"host\":\"drone.example\"\x7d"] ∧
    (attemptArgs ((exampleSender ["http://a.example"]).Send exampleEnv .background
        (some exampleHookWithSystem) 0).trace).map (fun a => a.2.2)
      = [bytesOf "\x7b\"event\":\"build.created\",\"system\":\x7b\"host\":\"drone.example\"\x7d\x7d"] ∧
    (attemptArgs ((New { Endpoint := ["http://a.example"], Secret := "s3cr3t", System := none } :
        sender Nat).Send exampleEnv .background (some exampleHookWithSystem) 0).trace).map
        (fun a => a.2.2)
      = [bytesOf "\x7b\"event\":\"build.created\"\x7d"] := by
  decide

/-- C5, as amended. The configured system is put in the wrapper whatever the payload holds: the
value `Send` serializes (once, for a non-empty endpoint list) is the payload wrapped with the
sender's system; its `system` member is the configured system when one is configured, for a
payload without a `system` member and for one with its own alike, and it has no `system` member
when none is configured; the members of the payload other than `system` come first and
unchanged; and every delivery attempt receives the JSON object of exactly these members. -/
theorem Send_system_field (s : sender W) (env : Env W) (ctx : Context)
    (hook : Option WebhookData) (w : W) :
    marshalled (s.Send env ctx hook w).trace =
        (if s.Endpoints.length = 0 then [] else [⟨hook, s.System⟩]) ∧
      fieldValue "system" (payload.fields ⟨hook, s.System⟩) = s.System.map System.encoded ∧
      payload.fields ⟨hook, s.System⟩ =
        (match hook with
          | none => []
          | some d => d.fields.filter fun kv => kv.1 != "system") ++
        (match s.System with
          | none => []
          | some sys => [("system", sys.encoded)]) ∧
      (attemptArgs (s.Send env ctx hook w).trace).map (fun a => a.2.2) =
        List.replicate (attempts (s.Send env ctx hook w).trace).length
          (bytesOf (encodeObject (payload.fields ⟨hook, s.System⟩))) := by
  refine ⟨Send_marshalled s env ctx hook w, fieldValue_fields _, rfl, ?_⟩
  rw [Send_attemptArgs s env ctx hook w]
  simp [json.Marshal]

/-! ## The error of the signer -/

theorem SignRequest_ok_error (sg : Signer) (id key : String) (r : Request) (sig : Signature)
    (h : sg.sign id key r = .ok sig) : (sg.SignRequest id key r).2 = none := by
  unfold Signer.SignRequest
  rw [h]

/-- The package's signer returns no error on a request `send` has built, whatever the key, the
endpoint, the event, the body and the two clock reads: both covered headers have a value, so the
error that line 91 assigns is always nil. -/
theorem SignRequest_built_error (key endpoint event : String) (data : Bytes) (t0 t1 : Nat) :
    (signer.SignRequest "hmac-key" key (builtRequest endpoint event data t0 t1)).2 = none :=
  SignRequest_ok_error _ _ _ _ _ (signer_sign_built _ _ _ _ _ _)

/-! ## One serialization for all attempts -/

/-- C10. Within one `Send` call that reaches the serialization (a non-empty endpoint list; the
call for an empty list returns before it) the payload is serialized exactly once; every delivery
attempt receives the sender's secret, the payload's event and the bytes of that one
serialization; and every request
that goes to the network has those bytes as its body, the payload's event in `X-Drone-Event` and
the same `Digest` value, that of those bytes. -/
theorem Send_serializes_once (s : sender W) (env : Env W) (ctx : Context)
    (hook : Option WebhookData) (w : W) :
    marshalled (s.Send env ctx hook w).trace =
        (if s.Endpoints.length = 0 then [] else [⟨hook, s.System⟩]) ∧
      attemptArgs (s.Send env ctx hook w).trace =
        List.replicate (attempts (s.Send env ctx hook w).trace).length
          (s.Secret, (hook.map WebhookData.Event).getD "", json.Marshal ⟨hook, s.System⟩) ∧
      (transmitted (s.Send env ctx hook w).trace).map Request.Body =
        List.replicate (transmitted (s.Send env ctx hook w).trace).length
          (json.Marshal ⟨hook, s.System⟩) ∧
      (transmitted (s.Send env ctx hook w).trace).map (fun req => req.Header.Get "Digest") =
        List.replicate (transmitted (s.Send env ctx hook w).trace).length
          ("SHA-256=" ++ digest (json.Marshal ⟨hook, s.System⟩)) ∧
      (transmitted (s.Send env ctx hook w).trace).map
          (fun req => req.Header.Get "X-Drone-Event") =
        List.replicate (transmitted (s.Send env ctx hook w).trace).length
          ((hook.map WebhookData.Event).getD "") := by
  refine ⟨Send_marshalled s env ctx hook w, Send_attemptArgs s env ctx hook w, ?_, ?_, ?_⟩
  · exact Send_transmitted_map s env ctx hook w _ _ (fun _ _ _ => sentRequest_Body _ _ _ _ _ _)
  · exact Send_transmitted_map s env ctx hook w _ _ (fun endpoint event w' => by
      rw [sentRequest_Get _ _ _ _ _ _ _ (by decide), built_Get_Digest])
  · unfold sender.Send
    split
    · rfl
    · cases hook with
      | none => simp [transmitted, loop_nil_payload]
      | some d =>
        simp only [transmitted, Option.map_some', Option.getD_some]
        exact loop_transmitted_map s env d _ _ _ (fun endpoint w' => by
          rw [sentRequest_Get _ _ _ _ _ _ _ (by decide), built_Get_event]) _ _

end Webhook
